import Mathlib

/-!
Verification of the checkers-bot-tournament core (game.py, controller.py)
against its natural-language specification.

The embedding is shallow: the two Python source files are translated into
Lean definitions.  Classes that the source files import but whose code is
not part of the repository snapshot (Board, Move, Colour, Result,
PlayMoveInfo, GameResult, the bots and checkers_util) are modelled from the
specification where a claim needs them; each such definition carries a
`Modelled from the spec:` doc comment.

Python `int` is embedded as `Int`; Python `//` and `%` on ints are floor
division and sign-of-divisor remainder, which for the positive divisors
used here coincide with `Int.ediv` / `Int.emod` (written `/` and `%` on
`Int` in Lean).
-/

set_option maxRecDepth 10000

namespace Checkers

/-- Modelled from the spec: `Colour` of piece.py (not under src/):
"Colour: enumerated {WHITE, BLACK}; has a total, involution-free
opposite operation (WHITE↔BLACK)." -/
inductive Colour where
  | WHITE
  | BLACK
deriving DecidableEq, Repr

/-- Modelled from the spec: `Colour.get_opposite` (piece.py, not under
src/), the WHITE↔BLACK swap used by `Game.swap_turn`. -/
def Colour.get_opposite : Colour → Colour
  | .WHITE => .BLACK
  | .BLACK => .WHITE

/-- Modelled from the spec: `Result` of game_result.py (not under src/):
terminal result tag, "result (WHITE/BLACK/DRAW)"; game.py uses
`Result.WHITE`, `Result.BLACK`, `Result.DRAW`. -/
inductive Result where
  | WHITE
  | BLACK
  | DRAW
deriving DecidableEq, Repr

/-- A board coordinate `(row, col)`, a Python `Tuple[int, int]`. -/
abbrev Coord := Int × Int

/-- Modelled from the spec: `Move` of move.py (not under src/): "a start
coordinate, end coordinate, and an ordered list of captured coordinates
(empty for non-capture moves)"; "Immutable once constructed."  The field
`end` of the Python class is named `endPos` because `end` is a Lean
keyword. -/
structure Move where
  start : Coord
  endPos : Coord
  removed : List Coord
deriving DecidableEq, Repr, Inhabited

/-! ### Coordinate / notation codec (game.py lines 178-200)

`Game._pdn_to_coordinates` takes the string `pdn` and first applies
`int(pdn)`; `Game._coordinates_to_pdn` returns `str(square_num)`.  The
decimal-numeral layer (`int` ↔ `str`, a bijection on canonically written
integers) is elided: the functions below work on the parsed square
number.  `board.size` is passed explicitly as `size`. -/

/-- Embeds `Game._pdn_to_coordinates` (game.py 178-184) after `int(pdn)`:
`row = (square_num - 1) // (size // 2)`,
`col = ((square_num - 1) % (size // 2)) * 2 + (1 if row % 2 == 0 else 0)`. -/
def pdn_to_coordinates (size : Int) (square_num : Int) : Coord :=
  let row := (square_num - 1) / (size / 2)
  let col := ((square_num - 1) % (size / 2)) * 2 + (if row % 2 = 0 then 1 else 0)
  (row, col)

/-- Embeds `Game._coordinates_to_pdn` (game.py 186-190) before `str(...)`:
`square_num = row * (size // 2) + (col // 2) + 1`. -/
def coordinates_to_pdn (size : Int) (coord : Coord) : Int :=
  let row := coord.1
  let col := coord.2
  row * (size / 2) + col / 2 + 1

/-- Embeds `Game._get_removed_position` (game.py 192-200): midpoint cell
between start and end. -/
def get_removed_position (start endPos : Coord) : Coord :=
  ((start.1 + endPos.1) / 2, (start.2 + endPos.2) / 2)

/-! ### The Game state machine (game.py) -/

/-- AUTO_DRAW_MOVECOUNT (game.py line 13): `40 * 2` plies. -/
def AUTO_DRAW_MOVECOUNT : Nat := 40 * 2

/-- Modelled from the spec: the `Board` class (board.py, not under src/).
Only its interface is needed (spec section 4.2): `is_valid_move`,
`get_move_list`, `move_piece` (which "applies move in place ... returns
how many pieces were removed and whether a promotion occurred" — embedded
as returning the new board state together with that pair), `display`, and
the `size` attribute read by the codec.  The board state type `σ` is
abstract, so every theorem below holds for every board implementation and
every board size. -/
structure BoardModel (σ : Type) where
  size : Int
  is_valid_move : σ → Colour → Move → Bool
  get_move_list : σ → Colour → List Move
  move_piece : σ → Move → σ × Nat × Bool
  display : σ → String

/-- The mutable fields of `Game` (game.py lines 27-52) that the per-ply
transition reads or writes.  `move_number` is not a field but the derived
property `move_history.length` (lines 57-64). -/
structure GameState (σ : Type) where
  board : σ
  current_turn : Colour
  is_first_move : Bool
  last_action_move : Nat
  white_kings_made : Nat
  white_num_captures : Nat
  black_kings_made : Nat
  black_num_captures : Nat
  moves_string : String
  move_history : List Move
  verbose : Bool
deriving DecidableEq

/-- Property `Game.move_number` (game.py 57-64): the length of the move
history, i.e. the move number of the last recorded move. -/
def Game.move_number (g : GameState σ) : Nat :=
  g.move_history.length

/-- Modelled from the spec: `PlayMoveInfo` (play_move_info.py, not under
src/): "an immutable snapshot handed to a bot: a copy of the board, the
mover's colour, the offered legal-move list, a copy of move history, the
current last_action_move, and an optional prior position evaluation
annotation."  `pos_eval` is `Optional[float]` in Python; the engine always
constructs it as `None` (game.py line 229), so the payload type is elided
(floats are not embedded). -/
structure PlayMoveInfo (σ : Type) where
  board : σ
  colour : Colour
  move_list : List Move
  move_history : List Move
  last_action_move : Nat
  pos_eval : Option Unit
deriving DecidableEq

/-- Modelled from the spec: a bot capability (section 4.4): `play_move
(snapshot: PlayMoveInfo) -> index`, a Python int (possibly negative, hence
`Int`), plus the identity data read by `make_unique_bot_string`
(`bot.bot_id` and `bot._get_name()`, game.py line 234).  A bot is embedded
as a pure function of the snapshot: the spec states the snapshot is a
value copy and `Move` is "Immutable once constructed", so the only channel
from the bot back into the engine is the returned index. -/
structure Bot (σ : Type) where
  bot_id : Int
  name : String
  play_move : PlayMoveInfo σ → Int

/-- Modelled from the spec: `make_unique_bot_string` (checkers_util.py,
not under src/); spec section 6: format `"<name>#<spawn-index>"`. -/
def make_unique_bot_string (bot_id : Int) (name : String) : String :=
  name ++ "#" ++ toString bot_id

/-- String rendering of a colour, used in the verbose move log.
Modelled from the spec (piece.py is not under src/): the display name of
the enum member. -/
def colour_str : Colour → String
  | .WHITE => "WHITE"
  | .BLACK => "BLACK"

/-- Python `str((row, col))` for a coordinate tuple. -/
def coord_str (c : Coord) : String :=
  "(" ++ toString c.1 ++ ", " ++ toString c.2 ++ ")"

/-- Embeds `Game._record_capture` (game.py 253-257). -/
def Game.record_capture (g : GameState σ) (captures : Nat) : GameState σ :=
  if g.current_turn = Colour.WHITE then
    { g with white_num_captures := g.white_num_captures + captures }
  else
    { g with black_num_captures := g.black_num_captures + captures }

/-- Embeds `Game._record_promotion` (game.py 259-263). -/
def Game.record_promotion (g : GameState σ) : GameState σ :=
  if g.current_turn = Colour.WHITE then
    { g with white_kings_made := g.white_kings_made + 1 }
  else
    { g with black_kings_made := g.black_kings_made + 1 }

/-- Embeds `Game.swap_turn` (game.py 297-300). -/
def Game.swap_turn (g : GameState σ) : GameState σ :=
  { g with current_turn := g.current_turn.get_opposite, is_first_move := true }

/-- Embeds `Game.move_piece` (game.py 117-143): append the move to the
history, apply it on the board, on a capture or promotion reset
`last_action_move` to the new `move_number` and accrue the tallies, and
when verbose append the move log text.  In the eval string the Python
`f"{pos_eval:.2f}"` float rendering is elided (the engine always passes
`pos_eval=None`, so the branch is never taken in engine runs). -/
def Game.move_piece (B : BoardModel σ) (g : GameState σ) (move : Move)
    (from_import : Bool) (play_move_info : Option (PlayMoveInfo σ)) : GameState σ :=
  let g0 := { g with move_history := g.move_history ++ [move] }
  let res := B.move_piece g.board move
  let captures := res.2.1
  let promotion := res.2.2
  let g1 := { g0 with board := res.1 }
  let g2 :=
    if captures ≠ 0 ∨ promotion then
      let ga := { g1 with last_action_move := Game.move_number g1 }
      let gb := if captures ≠ 0 then Game.record_capture ga captures else ga
      if promotion then Game.record_promotion gb else gb
    else g1
  if g2.verbose then
    let eval_str :=
      match play_move_info with
      | some i => match i.pos_eval with
        | some _ => ". Bot\x27s eval: "
        | none => ""
      | none => ""
    let s1 := "Move " ++ toString (Game.move_number g2) ++ ": "
      ++ colour_str g2.current_turn ++ "\x27s turn" ++ eval_str ++ "\n"
    let s2 := "Moved from " ++ coord_str move.start ++ " to " ++ coord_str move.endPos
    let s3 := if from_import then " (Book Move)" else ""
    { g2 with moves_string :=
        g2.moves_string ++ s1 ++ s2 ++ s3 ++ "\n" ++ B.display g2.board ++ "\n" }
  else g2

/-- The `PlayMoveInfo` snapshot built by `Game.make_move` (game.py
223-230).  The Python code hands the bot `copy.deepcopy(self.board)`,
`copy.copy(move_list)` and `copy.copy(self.move_history)`; in the pure
embedding a value copy is the value itself. -/
def Game.make_move_info (B : BoardModel σ) (g : GameState σ) : PlayMoveInfo σ :=
  { board := g.board
    colour := g.current_turn
    move_list := B.get_move_list g.board g.current_turn
    move_history := g.move_history
    last_action_move := g.last_action_move
    pos_eval := none }

/-- The bot selection on game.py line 203: `self.white_bot if
self.current_turn == Colour.WHITE else self.black_bot`. -/
def Game.turn_bot (white_bot black_bot : Bot σ) (g : GameState σ) : Bot σ :=
  if g.current_turn = Colour.WHITE then white_bot else black_bot

/-- Embeds `Game.make_move` (game.py 202-251).  The return value pairs
the Python return (`Optional[Result]`) with the post-call state of the
`Game` object; a raised `RuntimeError` is embedded as `.error` carrying
the message and the object state at the moment of the raise.  The Python
draw message interpolates `AUTO_DRAW_MOVECOUNT/2`, true division, which
renders as `40.0`. -/
def Game.make_move (B : BoardModel σ) (white_bot black_bot : Bot σ) (g : GameState σ) :
    Except (String × GameState σ) (Option Result × GameState σ) :=
  let bot := Game.turn_bot white_bot black_bot g
  let move_list := B.get_move_list g.board g.current_turn
  if move_list.length = 0 then
    let result := if g.current_turn = Colour.WHITE then Result.BLACK else Result.WHITE
    .ok (some result, g)
  else
    let info := Game.make_move_info B g
    let move_idx := bot.play_move info
    if h : move_idx < 0 ∨ move_idx ≥ (move_list.length : Int) then
      .error ("bot: " ++ make_unique_bot_string bot.bot_id bot.name
        ++ " has played an invalid move", g)
    else
      let move := move_list.get ⟨move_idx.toNat, by omega⟩
      let g1 := Game.move_piece B g move false (some info)
      if (Game.move_number g1 : Int) - (g1.last_action_move : Int)
          ≥ (AUTO_DRAW_MOVECOUNT : Int) then
        let g2 := if g1.verbose then
            { g1 with moves_string :=
                g1.moves_string ++ "Automatic draw by 40.0-move rule!\n" }
          else g1
        .ok (some Result.DRAW, g2)
      else
        .ok (none, g1)

/-! ### The run loop (game.py 265-276) -/

/-- Outcome of one iteration of the while-loop in `Game.run`. -/
inductive StepResult (σ : Type) where
  | next (g : GameState σ)
  | done (r : Result) (g : GameState σ)
  | err (msg : String) (g : GameState σ)
deriving DecidableEq

/-- One iteration of the while-loop in `Game.run` (game.py 269-274):
`result = self.make_move()`; on a result break, otherwise `swap_turn` and
continue; an exception propagates. -/
def Game.step (B : BoardModel σ) (wb bb : Bot σ) (g : GameState σ) : StepResult σ :=
  match Game.make_move B wb bb g with
  | .error (msg, g1) => .err msg g1
  | .ok (some r, g1) => .done r g1
  | .ok (none, g1) => .next (Game.swap_turn g1)

/-- The loop's state trajectory: `trajectory B wb bb g0 j` is the `Game`
object state after `j` iterations of the run loop from `g0` (frozen at the
state a terminating or failing iteration leaves behind). -/
def Game.trajectory (B : BoardModel σ) (wb bb : Bot σ) (g0 : GameState σ) : Nat → GameState σ
  | 0 => g0
  | j + 1 =>
    match Game.step B wb bb (Game.trajectory B wb bb g0 j) with
    | .next g => g
    | .done _ g => g
    | .err _ g => g

/-- A ply on which the side to move has a legal move, its bot answers an
in-range index, and the applied move removes no piece and promotes none:
`Board.move_piece` returns `(0, False)`. -/
def quietPly (B : BoardModel σ) (wb bb : Bot σ) (g : GameState σ) : Prop :=
  B.get_move_list g.board g.current_turn ≠ [] ∧
  0 ≤ (Game.turn_bot wb bb g).play_move (Game.make_move_info B g) ∧
  (Game.turn_bot wb bb g).play_move (Game.make_move_info B g) <
    ((B.get_move_list g.board g.current_turn).length : Int) ∧
  (B.move_piece g.board ((B.get_move_list g.board g.current_turn).getD
    ((Game.turn_bot wb bb g).play_move (Game.make_move_info B g)).toNat default)).2
    = (0, false)

instance (B : BoardModel σ) (wb bb : Bot σ) (g : GameState σ) :
    Decidable (quietPly B wb bb g) := by
  unfold quietPly; infer_instance

/-! ### Decimal numerals (the `str(int)` / `int(str)` layer of the codec) -/

/-- The decimal digit character for d in 0..9. -/
def digitChar : Nat → Char
  | 0 => '0' | 1 => '1' | 2 => '2' | 3 => '3' | 4 => '4'
  | 5 => '5' | 6 => '6' | 7 => '7' | 8 => '8' | _ => '9'

/-- Decimal digits, structurally recursive on a fuel bound so that the
kernel can evaluate it (`n < fuel` always holds at the call sites). -/
def natDigitsAux : Nat → Nat → List Char
  | 0, _ => []
  | fuel + 1, n =>
    if n < 10 then [digitChar n]
    else natDigitsAux fuel (n / 10) ++ [digitChar (n % 10)]

/-- Decimal digits of a natural number, most significant first, as Python
`str` renders a non-negative int. -/
def natDigits (n : Nat) : List Char :=
  natDigitsAux (n + 1) n

/-- Python `str` of an int, as a character list. -/
def intToChars (i : Int) : List Char :=
  if i < 0 then '-' :: natDigits (-i).toNat else natDigits i.toNat

/-- Python `int(s)` on an all-digit string: the value; `None` models the
`ValueError` on anything else.  (Python's tolerance for surrounding
whitespace, `+` and `_` is elided: no such tokens arise here.) -/
def parse_nat_digits (cs : List Char) : Option Nat :=
  if cs ≠ [] ∧ cs.all Char.isDigit then
    some (cs.foldl (fun a c => a * 10 + (c.toNat - Char.toNat '0')) 0)
  else none

/-- Python `int(s)` including a leading minus sign. -/
def parse_int (cs : List Char) : Option Int :=
  if cs.headD ' ' = '-' then (parse_nat_digits cs.tail).map (fun n => -(n : Int))
  else (parse_nat_digits cs).map (fun n => (n : Int))

/-- Python `s.split(sep)` for a one-character separator: split on every
occurrence, keeping empty parts. -/
def splitOnChar (sep : Char) : List Char → List (List Char)
  | [] => [[]]
  | c :: rest =>
    let r := splitOnChar sep rest
    if c = sep then [] :: r
    else
      match r with
      | [] => [[c]]
      | h :: t => (c :: h) :: t

/-! ### Notation import / export (game.py 66-115, 145-176)

`import_pdn` reads a whitespace-separated token file and `export_pdn`
joins tokens with spaces; the whitespace join/split layer is elided (every
produced token is nonempty and whitespace-free), so both ends work on the
token list, each token a character list. -/

/-- The fatal errors of the import path (game.py 77-115): the
`ValueError` of line 83 (`invalid_format`), the `ValueError`s Python
raises inside the token arithmetic (tuple unpacking of `split`, `int()`),
and the three `RuntimeError`s of lines 100-103, 105-108 and 113-115. -/
inductive ImportError where
  | invalid_format (token : List Char)
  | unpack_error (token : List Char)
  | invalid_number (token : List Char)
  | first_move_invalid (token : List Char)
  | invalid_move (colour : Colour) (turn : Nat) (token : List Char)
  | already_complete
deriving DecidableEq, Repr

/-- The loop body of `Game.export_pdn` (game.py 160-167): render one move
as `"<start>x<end>"` when its removed list is non-empty, else
`"<start>-<end>"`. -/
def Game.render_move (size : Int) (move : Move) : List Char :=
  let start := intToChars (coordinates_to_pdn size move.start)
  let e := intToChars (coordinates_to_pdn size move.endPos)
  if move.removed ≠ [] then start ++ 'x' :: e else start ++ '-' :: e

/-- Embeds `Game.export_pdn` (game.py 151-176) up to the final space
join: the token list rendered from the move history. -/
def Game.export_pdn (size : Int) (move_history : List Move) : List (List Char) :=
  move_history.map (Game.render_move size)

/-- Embeds the per-token parse of `Game.import_pdn` (game.py 77-89):
dispatch on `"-" in move`, then `"x" in move`, else the format
`ValueError`; split on the separator, parse both squares, and compute the
removed list from `"x" in move` (the midpoint of start and end). -/
def Game.parse_move_token (size : Int) (cs : List Char) : Except ImportError Move :=
  if '-' ∈ cs ∨ 'x' ∈ cs then
    let parts := if '-' ∈ cs then splitOnChar '-' cs else splitOnChar 'x' cs
    match parts with
    | [s, e] =>
      match parse_int s, parse_int e with
      | some start_num, some end_num =>
        let start_pos := pdn_to_coordinates size start_num
        let end_pos := pdn_to_coordinates size end_num
        let removed_pos :=
          if 'x' ∈ cs then [get_removed_position start_pos end_pos] else []
        .ok ⟨start_pos, end_pos, removed_pos⟩
      | _, _ => .error (ImportError.invalid_number cs)
    | _ => .error (ImportError.unpack_error cs)
  else .error (ImportError.invalid_format cs)

/-- Embeds the replay loop of `Game.import_pdn` (game.py 77-111): for the
first token determine `current_turn` by validity for WHITE then BLACK
(fatal if neither), for later tokens require validity for the current
turn; apply via `move_piece(move_obj, True)` and `swap_turn`. -/
def Game.import_moves (B : BoardModel σ) :
    List (List Char) → Bool → GameState σ → Except ImportError (GameState σ)
  | [], _, g => .ok g
  | cs :: rest, first, g =>
    match Game.parse_move_token B.size cs with
    | .error e => .error e
    | .ok move_obj =>
      let turnRes : Except ImportError Colour :=
        if first then
          if B.is_valid_move g.board Colour.WHITE move_obj then .ok Colour.WHITE
          else if B.is_valid_move g.board Colour.BLACK move_obj then .ok Colour.BLACK
          else .error (ImportError.first_move_invalid cs)
        else
          if B.is_valid_move g.board g.current_turn move_obj then .ok g.current_turn
          else .error (ImportError.invalid_move g.current_turn (Game.move_number g + 1) cs)
      match turnRes with
      | .error e => .error e
      | .ok turn =>
        let g1 := { g with current_turn := turn }
        let g2 := Game.move_piece B g1 move_obj true none
        Game.import_moves B rest false (Game.swap_turn g2)

/-- Embeds `Game.import_pdn` (game.py 66-115): replay all tokens, then
fail fatally when the reached position has no legal move for the side to
move (lines 113-115, "already complete"). -/
def Game.import_pdn (B : BoardModel σ) (tokens : List (List Char)) (g : GameState σ) :
    Except ImportError (GameState σ) :=
  match Game.import_moves B tokens true g with
  | .error e => .error e
  | .ok g1 =>
    if B.get_move_list g1.board g1.current_turn = [] then
      .error ImportError.already_complete
    else .ok g1

/-- The coordinates reached by the square numbering of spec section 4.1
on a size-N board: rows 0..N-1, columns 0..N-1, with the column parity
the numbering assigns (odd columns on even rows, even columns on odd
rows). -/
def on_playable_square (size : Int) (c : Coord) : Prop :=
  0 ≤ c.1 ∧ c.1 < size ∧ 0 ≤ c.2 ∧ c.2 < size ∧
    c.2 % 2 = (if c.1 % 2 = 0 then 1 else 0)

instance (size : Int) (c : Coord) : Decidable (on_playable_square size c) := by
  unfold on_playable_square; infer_instance

/-! ### GameResult production (game.py 278-295) -/

/-- Modelled from the spec: `GameResult` (game_result.py, not under
src/), with exactly the keyword fields `Game._write_game_result` passes
(game.py 279-294). -/
structure GameResult where
  game_id : Int
  game_round : Int
  result : Result
  white_name : String
  white_rating : Int
  white_kings_made : Nat
  white_num_captures : Nat
  black_name : String
  black_rating : Int
  black_kings_made : Nat
  black_num_captures : Nat
  num_moves : Nat
  moves : String
  moves_pdn : String
deriving DecidableEq, Repr

/-- Embeds `Game._write_game_result` (game.py 278-295).  The names and
ratings come from the two `BotTracker`s (not under src/), passed here as
parameters.  Line 293 passes the literal empty string as `moves_pdn`
("TODO: fix pdns for chain captures"). -/
def Game.write_game_result (g : GameState σ) (result : Result)
    (game_id game_round : Int) (white_name black_name : String)
    (white_rating black_rating : Int) : GameResult :=
  { game_id := game_id
    game_round := game_round
    result := result
    white_name := white_name
    white_rating := white_rating
    white_kings_made := g.white_kings_made
    white_num_captures := g.white_num_captures
    black_name := black_name
    black_rating := black_rating
    black_kings_made := g.black_kings_made
    black_num_captures := g.black_num_captures
    num_moves := Game.move_number g
    moves := g.moves_string
    moves_pdn := "" }

/-! ### Controller statistics (controller.py 110-113, 138-187) -/

/-- Modelled from the spec: the per-game view the controller's statistics
loop reads (controller.py 173-184): `winner_name`, `winner_colour`,
`loser_name`, `loser_colour`, read unconditionally for every game; the
`result` tag (WHITE/BLACK/DRAW per spec section 3) is carried alongside.
`GameResult`'s winner/loser accessors are not under src/; they are
modelled as always naming the two participants, which is what the
controller's unconditional reads require. -/
structure ControllerGameRecord where
  result : Result
  winner_name : String
  winner_colour : String
  loser_name : String
  loser_colour : String
deriving DecidableEq, Repr

/-- `GameResultStat` (controller.py 20-25). -/
structure GameResultStat where
  white_wins : Nat
  white_losses : Nat
  black_wins : Nat
  black_losses : Nat
deriving DecidableEq, Repr

/-- Sum of the four statistics fields of one bot's entry. -/
def GameResultStat.total (s : GameResultStat) : Nat :=
  s.white_wins + s.white_losses + s.black_wins + s.black_losses

/-- The "Add winner" step (controller.py 174-178): one win for the
winner, white or black by `winner_colour == "WHITE"`.  The Python dict is
embedded as a total map (the controller pre-registers every participating
bot name, lines 168-171, so the `KeyError` path cannot fire). -/
def add_winner (m : String → GameResultStat) (game : ControllerGameRecord) :
    String → GameResultStat :=
  fun name =>
    if name = game.winner_name then
      if game.winner_colour = "WHITE" then
        { m name with white_wins := (m name).white_wins + 1 }
      else
        { m name with black_wins := (m name).black_wins + 1 }
    else m name

/-- The "Add loser" step (controller.py 180-184). -/
def add_loser (m : String → GameResultStat) (game : ControllerGameRecord) :
    String → GameResultStat :=
  fun name =>
    if name = game.loser_name then
      if game.loser_colour = "WHITE" then
        { m name with white_losses := (m name).white_losses + 1 }
      else
        { m name with black_losses := (m name).black_losses + 1 }
    else m name

/-- The statistics accumulation loop of `Controller.write_game_results`
(controller.py 173-184), from the all-zero initial map (lines 167-171).
Note it has no branch for drawn games: every game adds one win and one
loss. -/
def write_game_results_stats (games : List ControllerGameRecord) :
    String → GameResultStat :=
  games.foldl (fun m game => add_loser (add_winner m game) game)
    (fun _ => ⟨0, 0, 0, 0⟩)

/-! ### Concrete instantiations used by the witnesses -/

/-- A concrete move between two playable squares of the default 8-board
(squares 10 and 14 of the numbering). -/
def mv0 : Move := ⟨(2, 1), (3, 2), []⟩

/-- A board with no legal moves for anybody. -/
def unitBoardNoMoves : BoardModel Unit :=
  { size := 8
    is_valid_move := fun _ _ _ => true
    get_move_list := fun _ _ => []
    move_piece := fun b _ => (b, 0, false)
    display := fun _ => "" }

/-- A board that always offers exactly the move `mv0`, with no captures
and no promotions. -/
def unitBoardOneMove : BoardModel Unit :=
  { size := 8
    is_valid_move := fun _ _ _ => true
    get_move_list := fun _ _ => [mv0]
    move_piece := fun b _ => (b, 0, false)
    display := fun _ => "" }

/-- A board (state = number of applied moves) that offers `mv0` in the
initial position only; after one move nobody has a legal move. -/
def natBoardOnce : BoardModel Nat :=
  { size := 8
    is_valid_move := fun _ _ _ => true
    get_move_list := fun n _ => if n = 0 then [mv0] else []
    move_piece := fun n _ => (n + 1, 0, false)
    display := fun _ => "" }

/-- A bot that always picks index 0. -/
def bot0 : Bot Unit := ⟨0, "RandomBot", fun _ => 0⟩

/-- A bot that always answers the out-of-range index -1. -/
def botNeg : Bot Unit := ⟨1, "FirstMover", fun _ => -1⟩

/-- A fresh game state over the trivial board. -/
def gU : GameState Unit :=
  ⟨(), Colour.WHITE, true, 0, 0, 0, 0, 0, "", [], false⟩

/-- A fresh game state over the counting board. -/
def gN : GameState Nat :=
  ⟨0, Colour.WHITE, true, 0, 0, 0, 0, 0, "", [], false⟩

/-! ### Field lemmas about the state updates -/

@[simp] lemma record_capture_move_history (g : GameState σ) (c : Nat) :
    (Game.record_capture g c).move_history = g.move_history := by
  unfold Game.record_capture; split <;> rfl

@[simp] lemma record_capture_board (g : GameState σ) (c : Nat) :
    (Game.record_capture g c).board = g.board := by
  unfold Game.record_capture; split <;> rfl

@[simp] lemma record_capture_current_turn (g : GameState σ) (c : Nat) :
    (Game.record_capture g c).current_turn = g.current_turn := by
  unfold Game.record_capture; split <;> rfl

@[simp] lemma record_capture_verbose (g : GameState σ) (c : Nat) :
    (Game.record_capture g c).verbose = g.verbose := by
  unfold Game.record_capture; split <;> rfl

@[simp] lemma record_capture_last_action_move (g : GameState σ) (c : Nat) :
    (Game.record_capture g c).last_action_move = g.last_action_move := by
  unfold Game.record_capture; split <;> rfl

@[simp] lemma record_promotion_move_history (g : GameState σ) :
    (Game.record_promotion g).move_history = g.move_history := by
  unfold Game.record_promotion; split <;> rfl

@[simp] lemma record_promotion_board (g : GameState σ) :
    (Game.record_promotion g).board = g.board := by
  unfold Game.record_promotion; split <;> rfl

@[simp] lemma record_promotion_current_turn (g : GameState σ) :
    (Game.record_promotion g).current_turn = g.current_turn := by
  unfold Game.record_promotion; split <;> rfl

@[simp] lemma record_promotion_verbose (g : GameState σ) :
    (Game.record_promotion g).verbose = g.verbose := by
  unfold Game.record_promotion; split <;> rfl

@[simp] lemma record_promotion_last_action_move (g : GameState σ) :
    (Game.record_promotion g).last_action_move = g.last_action_move := by
  unfold Game.record_promotion; split <;> rfl

lemma move_piece_fields (B : BoardModel σ) (g : GameState σ) (move : Move)
    (fi : Bool) (info : Option (PlayMoveInfo σ)) :
    (Game.move_piece B g move fi info).move_history = g.move_history ++ [move] ∧
    (Game.move_piece B g move fi info).board = (B.move_piece g.board move).1 ∧
    (Game.move_piece B g move fi info).current_turn = g.current_turn ∧
    (Game.move_piece B g move fi info).verbose = g.verbose := by
  unfold Game.move_piece
  dsimp only
  refine ⟨?_, ?_, ?_, ?_⟩ <;> (repeat' split) <;> simp_all

/-- When the applied move produces no capture and no promotion,
`Game.move_piece` leaves `last_action_move` alone and extends the history
by one. -/
lemma move_piece_quiet (B : BoardModel σ) (g : GameState σ) (move : Move)
    (fi : Bool) (info : Option (PlayMoveInfo σ))
    (h : (B.move_piece g.board move).2 = (0, false)) :
    (Game.move_piece B g move fi info).last_action_move = g.last_action_move ∧
    (Game.move_piece B g move fi info).move_history = g.move_history ++ [move] := by
  unfold Game.move_piece
  dsimp only
  rw [h]
  constructor <;> (repeat' split) <;> simp_all

/-! ### Claims C2, C3, C4 -/

/-- C2: If `get_move_list(current_turn)` is empty at the start of a ply,
`make_move` immediately returns the opposite colour as the winner with the
game state completely unchanged (the ply is not counted: move history,
move number, board and all tallies are untouched), and the outcome is the
same for every bot — no bot is consulted. -/
theorem make_move_no_legal_moves (B : BoardModel σ) (wb bb : Bot σ) (g : GameState σ)
    (h : B.get_move_list g.board g.current_turn = []) :
    Game.make_move B wb bb g =
      .ok (some (if g.current_turn = Colour.WHITE then Result.BLACK else Result.WHITE), g) ∧
    ∀ wb2 bb2 : Bot σ, Game.make_move B wb2 bb2 g = Game.make_move B wb bb g := by
  constructor
  · simp [Game.make_move, h]
  · intro wb2 bb2
    simp [Game.make_move, h]

/-- C3: On a non-empty legal-move list, a bot index outside
`[0, len(move_list))` makes `make_move` raise the fatal
`RuntimeError` whose message names the offending bot via
`make_unique_bot_string`, with the game state at the raise equal to the
pre-ply state: the move is not applied and nothing is changed. -/
theorem make_move_invalid_index (B : BoardModel σ) (wb bb : Bot σ) (g : GameState σ)
    (hne : B.get_move_list g.board g.current_turn ≠ [])
    (hidx : (Game.turn_bot wb bb g).play_move (Game.make_move_info B g) < 0 ∨
      (Game.turn_bot wb bb g).play_move (Game.make_move_info B g) ≥
        ((B.get_move_list g.board g.current_turn).length : Int)) :
    Game.make_move B wb bb g =
      .error ("bot: " ++ make_unique_bot_string (Game.turn_bot wb bb g).bot_id
          (Game.turn_bot wb bb g).name
        ++ " has played an invalid move", g) := by
  have hlen : ¬ (B.get_move_list g.board g.current_turn).length = 0 := by
    simpa [List.length_eq_zero] using hne
  simp only [Game.make_move]
  rw [if_neg hlen, dif_pos hidx]

/-- C4: On any ply taken through the normal path (non-empty move list,
in-range index), the engine's post-call state is its pre-call state plus
exactly the one chosen move applied: the history is extended by exactly
`move_list[move_idx]` and the board is `move_piece` of the pre-call board
on that move.  Moreover the engine outcome depends on the bot only through
the returned index: any bot answering the same index on the same snapshot
produces the identical engine state, so nothing a bot does to the snapshot
copies it received is observable in engine state. -/
theorem make_move_snapshot_isolation (B : BoardModel σ) (wb bb : Bot σ) (g : GameState σ)
    (hne : B.get_move_list g.board g.current_turn ≠ [])
    (h0 : 0 ≤ (Game.turn_bot wb bb g).play_move (Game.make_move_info B g))
    (hlt : (Game.turn_bot wb bb g).play_move (Game.make_move_info B g) <
      ((B.get_move_list g.board g.current_turn).length : Int)) :
    (∀ wb2 bb2 : Bot σ,
      (Game.turn_bot wb2 bb2 g).play_move (Game.make_move_info B g) =
        (Game.turn_bot wb bb g).play_move (Game.make_move_info B g) →
      Game.make_move B wb2 bb2 g = Game.make_move B wb bb g) ∧
    ∃ r g1,
      Game.make_move B wb bb g = .ok (r, g1) ∧
      g1.move_history = g.move_history ++
        [(B.get_move_list g.board g.current_turn).getD
          ((Game.turn_bot wb bb g).play_move (Game.make_move_info B g)).toNat default] ∧
      g1.board = (B.move_piece g.board
        ((B.get_move_list g.board g.current_turn).getD
          ((Game.turn_bot wb bb g).play_move (Game.make_move_info B g)).toNat default)).1 := by
  have hlen : ¬ (B.get_move_list g.board g.current_turn).length = 0 := by
    simpa [List.length_eq_zero] using hne
  have hnotbad : ¬ ((Game.turn_bot wb bb g).play_move (Game.make_move_info B g) < 0 ∨
      (Game.turn_bot wb bb g).play_move (Game.make_move_info B g) ≥
        ((B.get_move_list g.board g.current_turn).length : Int)) := by
    push_neg
    exact ⟨h0, hlt⟩
  have hgetD : (B.get_move_list g.board g.current_turn).getD
      ((Game.turn_bot wb bb g).play_move (Game.make_move_info B g)).toNat default =
      (B.get_move_list g.board g.current_turn).get
        ⟨((Game.turn_bot wb bb g).play_move (Game.make_move_info B g)).toNat, by omega⟩ := by
    rw [List.getD_eq_getElem _ _ (by omega)]
    simp [List.get_eq_getElem]
  refine ⟨?_, ?_⟩
  · intro wb2 bb2 hsame
    simp only [Game.make_move, hsame]
    rw [dif_neg hnotbad, dif_neg hnotbad]
  simp only [Game.make_move]
  rw [if_neg hlen, dif_neg hnotbad]
  set mv := (B.get_move_list g.board g.current_turn).get
    ⟨((Game.turn_bot wb bb g).play_move (Game.make_move_info B g)).toNat, by omega⟩ with hmv
  obtain ⟨hhist, hboard, _, _⟩ :=
    move_piece_fields B g mv false (some (Game.make_move_info B g))
  split
  · refine ⟨some Result.DRAW, _, rfl, ?_, ?_⟩
    · rw [hgetD]; split <;> simp [hhist]
    · rw [hgetD]; split <;> simp [hboard]
  · refine ⟨none, _, rfl, ?_, ?_⟩
    · rw [hgetD]; exact hhist
    · rw [hgetD]; exact hboard

/-- C5: For every even board size N and every valid square number n in
1..(N²/4), converting n to a coordinate with `pdn_to_coordinates` and
converting that coordinate back with `coordinates_to_pdn` yields n again:
the two codec functions are mutual inverses over the valid square range. -/
theorem pdn_codec_roundtrip (N n : Int) (hN : 2 ≤ N) (hNeven : N % 2 = 0)
    (hn1 : 1 ≤ n) (hn2 : n ≤ N * N / 4) :
    coordinates_to_pdn N (pdn_to_coordinates N n) = n := by
  have hh : (0 : Int) < N / 2 := by omega
  simp only [pdn_to_coordinates, coordinates_to_pdn]
  set h := N / 2 with hhdef
  set r := (n - 1) / h with hrdef
  set q := (n - 1) % h with hqdef
  set b := (if r % 2 = 0 then (1 : Int) else 0) with hbdef
  have hb : b = 0 ∨ b = 1 := by
    rw [hbdef]; split <;> simp
  have hdiv : (q * 2 + b) / 2 = q := by
    have h1 : q * 2 + b = b + 2 * q := by ring
    rw [h1, Int.add_mul_ediv_left b q (by norm_num : (2 : Int) ≠ 0)]
    rcases hb with hb | hb <;> simp [hb]
  have hqr : h * r + q = n - 1 := Int.ediv_add_emod (n - 1) h
  rw [hdiv]
  linarith [hqr, mul_comm r h]

/-- Witness for `pdn_codec_roundtrip` at N = 8, n = 5 (spec: square 5 →
(1,0) → square 5). -/
theorem pdn_codec_roundtrip_witness :
    (2 : Int) ≤ 8 ∧ (8 : Int) % 2 = 0 ∧ (1 : Int) ≤ 5 ∧ (5 : Int) ≤ 8 * 8 / 4 ∧
    coordinates_to_pdn 8 (pdn_to_coordinates 8 5) = 5 :=
  ⟨by norm_num, by norm_num, by norm_num, by norm_num,
    pdn_codec_roundtrip 8 5 (by norm_num) (by norm_num) (by norm_num) (by norm_num)⟩

@[simp] lemma swap_turn_move_history (g : GameState σ) :
    (Game.swap_turn g).move_history = g.move_history := rfl

@[simp] lemma swap_turn_last_action_move (g : GameState σ) :
    (Game.swap_turn g).last_action_move = g.last_action_move := rfl

@[simp] lemma swap_turn_board (g : GameState σ) :
    (Game.swap_turn g).board = g.board := rfl

/-- Characterization of `make_move` on a quiet ply: the history grows by
one, `last_action_move` is untouched, and the ply ends in DRAW exactly
when the new `move_number` minus `last_action_move` has reached
`AUTO_DRAW_MOVECOUNT`. -/
lemma make_move_quiet_char (B : BoardModel σ) (wb bb : Bot σ) (g : GameState σ)
    (hq : quietPly B wb bb g) :
    (((g.move_history.length : Int) + 1 - (g.last_action_move : Int) < 80) →
      ∃ g1, Game.make_move B wb bb g = .ok (none, g1) ∧
        g1.move_history.length = g.move_history.length + 1 ∧
        g1.last_action_move = g.last_action_move) ∧
    (((g.move_history.length : Int) + 1 - (g.last_action_move : Int) ≥ 80) →
      ∃ g1, Game.make_move B wb bb g = .ok (some Result.DRAW, g1)) := by
  obtain ⟨hne, h0, hlt, hq2⟩ := hq
  have hlen : ¬ (B.get_move_list g.board g.current_turn).length = 0 := by
    simpa [List.length_eq_zero] using hne
  have hnotbad : ¬ ((Game.turn_bot wb bb g).play_move (Game.make_move_info B g) < 0 ∨
      (Game.turn_bot wb bb g).play_move (Game.make_move_info B g) ≥
        ((B.get_move_list g.board g.current_turn).length : Int)) := by
    push_neg; exact ⟨h0, hlt⟩
  have hbound : ((Game.turn_bot wb bb g).play_move (Game.make_move_info B g)).toNat <
      (B.get_move_list g.board g.current_turn).length := by omega
  have hgetD : (B.get_move_list g.board g.current_turn).getD
      ((Game.turn_bot wb bb g).play_move (Game.make_move_info B g)).toNat default =
      (B.get_move_list g.board g.current_turn).get
        ⟨((Game.turn_bot wb bb g).play_move (Game.make_move_info B g)).toNat, hbound⟩ := by
    rw [List.getD_eq_getElem _ _ hbound]
    simp [List.get_eq_getElem]
  rw [hgetD] at hq2
  simp only [Game.make_move]
  rw [if_neg hlen, dif_neg hnotbad]
  set mv := (B.get_move_list g.board g.current_turn).get
    ⟨((Game.turn_bot wb bb g).play_move (Game.make_move_info B g)).toNat, hbound⟩ with hmv
  obtain ⟨hlast, hhist⟩ :=
    move_piece_quiet B g mv false (some (Game.make_move_info B g)) hq2
  have hm : Game.move_number (Game.move_piece B g mv false (some (Game.make_move_info B g))) =
      g.move_history.length + 1 := by
    simp [Game.move_number, hhist]
  constructor
  · intro hsmall
    have hc : ¬ ((Game.move_number
          (Game.move_piece B g mv false (some (Game.make_move_info B g))) : Int) -
        ((Game.move_piece B g mv false (some (Game.make_move_info B g))).last_action_move : Int)
          ≥ (AUTO_DRAW_MOVECOUNT : Int)) := by
      rw [hm, hlast]
      unfold AUTO_DRAW_MOVECOUNT
      push_cast
      omega
    rw [if_neg hc]
    refine ⟨_, rfl, ?_, hlast⟩
    simp [hhist]
  · intro hbig
    have hc : ((Game.move_number
          (Game.move_piece B g mv false (some (Game.make_move_info B g))) : Int) -
        ((Game.move_piece B g mv false (some (Game.make_move_info B g))).last_action_move : Int)
          ≥ (AUTO_DRAW_MOVECOUNT : Int)) := by
      rw [hm, hlast]
      unfold AUTO_DRAW_MOVECOUNT
      push_cast
      omega
    rw [if_pos hc]
    exact ⟨_, rfl⟩

/-- Along a quiet trajectory the history length grows by one per ply and
`last_action_move` never moves. -/
lemma trajectory_quiet_invariant (B : BoardModel σ) (wb bb : Bot σ) (g0 : GameState σ)
    (hL : g0.last_action_move = g0.move_history.length)
    (hq : ∀ j, j < 80 → quietPly B wb bb (Game.trajectory B wb bb g0 j)) :
    ∀ j, j ≤ 79 →
      (Game.trajectory B wb bb g0 j).move_history.length = g0.move_history.length + j ∧
      (Game.trajectory B wb bb g0 j).last_action_move = g0.last_action_move := by
  intro j
  induction j with
  | zero => intro _; exact ⟨rfl, rfl⟩
  | succ j ih =>
    intro hj79
    obtain ⟨ihlen, ihlast⟩ := ih (by omega)
    obtain ⟨hstep, -⟩ := make_move_quiet_char B wb bb _ (hq j (by omega))
    have hsmall : ((Game.trajectory B wb bb g0 j).move_history.length : Int) + 1 -
        ((Game.trajectory B wb bb g0 j).last_action_move : Int) < 80 := by
      rw [ihlen, ihlast, hL]
      push_cast
      omega
    obtain ⟨g1, hmk, hg1len, hg1last⟩ := hstep hsmall
    have htraj : Game.trajectory B wb bb g0 (j + 1) = Game.swap_turn g1 := by
      simp only [Game.trajectory, Game.step, hmk]
    rw [htraj]
    constructor
    · rw [swap_turn_move_history]
      omega
    · rw [swap_turn_last_action_move]
      rw [hg1last, ihlast]

/-- C1: From any state reached right after a capture or promotion (or the
start of the game), i.e. with `last_action_move = move_number`, a run of
consecutive plies with no capture and no promotion makes `make_move`
return None (game continues) on each of the first 79 such plies and the
DRAW result on exactly the 80th, for every board model (hence every board
size) and every pair of bots. -/
theorem auto_draw_timing (B : BoardModel σ) (wb bb : Bot σ) (g0 : GameState σ)
    (hL : g0.last_action_move = g0.move_history.length)
    (hq : ∀ j, j < 80 → quietPly B wb bb (Game.trajectory B wb bb g0 j)) :
    (∀ j, j < 79 →
      ∃ g1, Game.make_move B wb bb (Game.trajectory B wb bb g0 j) = .ok (none, g1)) ∧
    ∃ g1, Game.make_move B wb bb (Game.trajectory B wb bb g0 79) =
      .ok (some Result.DRAW, g1) := by
  have hinv := trajectory_quiet_invariant B wb bb g0 hL hq
  constructor
  · intro j hj
    obtain ⟨hlen, hlast⟩ := hinv j (by omega)
    obtain ⟨hsm, -⟩ := make_move_quiet_char B wb bb _ (hq j (by omega))
    obtain ⟨g1, hmk, -, -⟩ := hsm (by rw [hlen, hlast, hL]; push_cast; omega)
    exact ⟨g1, hmk⟩
  · obtain ⟨hlen, hlast⟩ := hinv 79 (by omega)
    obtain ⟨-, hbg⟩ := make_move_quiet_char B wb bb _ (hq 79 (by omega))
    exact hbg (by rw [hlen, hlast, hL]; push_cast; omega)

/-- Witness for `auto_draw_timing`: on the concrete one-move board with
the index-0 bot on both sides, the first 79 plies continue and the 80th
draws. -/
theorem auto_draw_timing_witness :
    (gU.last_action_move = gU.move_history.length ∧
      ∀ j, j < 80 →
        quietPly unitBoardOneMove bot0 bot0
          (Game.trajectory unitBoardOneMove bot0 bot0 gU j)) ∧
    ((∀ j, j < 79 →
        ∃ g1, Game.make_move unitBoardOneMove bot0 bot0
          (Game.trajectory unitBoardOneMove bot0 bot0 gU j) = .ok (none, g1)) ∧
      ∃ g1, Game.make_move unitBoardOneMove bot0 bot0
        (Game.trajectory unitBoardOneMove bot0 bot0 gU 79) =
          .ok (some Result.DRAW, g1)) :=
  ⟨⟨rfl, by decide⟩, auto_draw_timing unitBoardOneMove bot0 bot0 gU rfl (by decide)⟩

/-- Witness for `make_move_no_legal_moves` on the concrete no-move
board: BLACK wins immediately and the state is untouched. -/
theorem make_move_no_legal_moves_witness :
    unitBoardNoMoves.get_move_list gU.board gU.current_turn = [] ∧
    (Game.make_move unitBoardNoMoves bot0 botNeg gU =
        .ok (some (if gU.current_turn = Colour.WHITE then Result.BLACK else Result.WHITE),
          gU) ∧
      ∀ wb2 bb2 : Bot Unit, Game.make_move unitBoardNoMoves wb2 bb2 gU =
        Game.make_move unitBoardNoMoves bot0 botNeg gU) :=
  ⟨rfl, make_move_no_legal_moves unitBoardNoMoves bot0 botNeg gU rfl⟩

/-- Witness for `make_move_invalid_index`: the bot answering -1 on the
one-move board triggers the fatal error naming it. -/
theorem make_move_invalid_index_witness :
    (unitBoardOneMove.get_move_list gU.board gU.current_turn ≠ [] ∧
      ((Game.turn_bot botNeg botNeg gU).play_move
          (Game.make_move_info unitBoardOneMove gU) < 0 ∨
        (Game.turn_bot botNeg botNeg gU).play_move
            (Game.make_move_info unitBoardOneMove gU) ≥
          ((unitBoardOneMove.get_move_list gU.board gU.current_turn).length : Int))) ∧
    Game.make_move unitBoardOneMove botNeg botNeg gU =
      .error ("bot: " ++ make_unique_bot_string (Game.turn_bot botNeg botNeg gU).bot_id
          (Game.turn_bot botNeg botNeg gU).name
        ++ " has played an invalid move", gU) :=
  ⟨⟨by decide, Or.inl (by decide)⟩,
    make_move_invalid_index unitBoardOneMove botNeg botNeg gU (by decide)
      (Or.inl (by decide))⟩

/-- Witness for `make_move_snapshot_isolation` on the one-move board with
the index-0 bot. -/
theorem make_move_snapshot_isolation_witness :
    (unitBoardOneMove.get_move_list gU.board gU.current_turn ≠ [] ∧
      0 ≤ (Game.turn_bot bot0 bot0 gU).play_move
        (Game.make_move_info unitBoardOneMove gU) ∧
      (Game.turn_bot bot0 bot0 gU).play_move (Game.make_move_info unitBoardOneMove gU) <
        ((unitBoardOneMove.get_move_list gU.board gU.current_turn).length : Int)) ∧
    ((∀ wb2 bb2 : Bot Unit,
        (Game.turn_bot wb2 bb2 gU).play_move (Game.make_move_info unitBoardOneMove gU) =
          (Game.turn_bot bot0 bot0 gU).play_move
            (Game.make_move_info unitBoardOneMove gU) →
        Game.make_move unitBoardOneMove wb2 bb2 gU =
          Game.make_move unitBoardOneMove bot0 bot0 gU) ∧
      ∃ r g1,
        Game.make_move unitBoardOneMove bot0 bot0 gU = .ok (r, g1) ∧
        g1.move_history = gU.move_history ++
          [(unitBoardOneMove.get_move_list gU.board gU.current_turn).getD
            ((Game.turn_bot bot0 bot0 gU).play_move
              (Game.make_move_info unitBoardOneMove gU)).toNat default] ∧
        g1.board = (unitBoardOneMove.move_piece gU.board
          ((unitBoardOneMove.get_move_list gU.board gU.current_turn).getD
            ((Game.turn_bot bot0 bot0 gU).play_move
              (Game.make_move_info unitBoardOneMove gU)).toNat default)).1) :=
  ⟨⟨by decide, by decide, by decide⟩,
    make_move_snapshot_isolation unitBoardOneMove bot0 bot0 gU (by decide) (by decide)
      (by decide)⟩

/-- C10: For every completed game — whatever the move history holds,
chain captures included, and whatever the result — the `GameResult`
assembled by `_write_game_result` carries the empty string in its
`moves_pdn` field: the notation export is never consulted during result
production (the field is the literal `""` independent of the state). -/
theorem game_result_empty_moves_pdn (g : GameState σ) (result : Result)
    (game_id game_round : Int) (white_name black_name : String)
    (white_rating black_rating : Int) :
    (Game.write_game_result g result game_id game_round white_name black_name
      white_rating black_rating).moves_pdn = "" := rfl

/-- One game's effect on one bot's statistics entry: an increment of
exactly 1 when the bot holds the winner or the loser slot, 0 otherwise. -/
lemma step_total (m : String → GameResultStat) (game : ControllerGameRecord)
    (name : String) (h : game.winner_name ≠ game.loser_name) :
    ((add_loser (add_winner m game) game) name).total =
      (m name).total +
        (if name = game.winner_name ∨ name = game.loser_name then 1 else 0) := by
  have hne : name = game.winner_name → name = game.loser_name → False := by
    intro hw hl
    exact h (hw ▸ hl)
  unfold add_loser add_winner
  split_ifs <;> simp_all [GameResultStat.total] <;> omega

/-- Accumulated form of `step_total` over the whole game list. -/
lemma stats_foldl_total (games : List ControllerGameRecord)
    (m : String → GameResultStat) (name : String)
    (hdist : ∀ game ∈ games, game.winner_name ≠ game.loser_name) :
    ((games.foldl (fun m game => add_loser (add_winner m game) game) m) name).total =
      (m name).total +
        games.countP (fun game => name == game.winner_name || name == game.loser_name) := by
  induction games generalizing m with
  | nil => simp
  | cons game gs ih =>
    simp only [List.foldl_cons, List.countP_cons]
    rw [ih _ (fun g hg => hdist g (List.mem_cons_of_mem _ hg))]
    rw [step_total m game name (hdist game (List.mem_cons_self _ _))]
    simp only [Bool.or_eq_true, beq_iff_eq]
    split_ifs <;> simp_all <;> omega

/-- C7 (amended): For every run and every bot name, the four statistics
fields of that bot's entry sum to exactly the number of games in which
the bot held the winner or the loser slot — its number of games played —
because EVERY game, drawn ones included, adds exactly one win to its
winner-slot holder and one loss to its loser-slot holder. -/
theorem stats_conservation (games : List ControllerGameRecord) (name : String)
    (hdist : ∀ game ∈ games, game.winner_name ≠ game.loser_name) :
    (write_game_results_stats games name).total =
      games.countP (fun game => name == game.winner_name || name == game.loser_name) := by
  unfold write_game_results_stats
  rw [stats_foldl_total games _ name hdist]
  simp [GameResultStat.total]

/-- C7 counterexample: a run consisting of one DRAWN game.  The claim
says a drawn game contributes neither a win nor a loss to either
participant; the accumulation loop (which has no draw branch) still
gives the winner-slot holder one win and the loser-slot holder one loss,
so each participant's total is 1, not 0. -/
theorem stats_draw_counted_counterexample :
    (⟨Result.DRAW, "A#0", "WHITE", "B#1", "BLACK"⟩ : ControllerGameRecord).result
        = Result.DRAW ∧
    (write_game_results_stats
        [⟨Result.DRAW, "A#0", "WHITE", "B#1", "BLACK"⟩] "A#0").white_wins = 1 ∧
    (write_game_results_stats
        [⟨Result.DRAW, "A#0", "WHITE", "B#1", "BLACK"⟩] "B#1").black_losses = 1 ∧
    (write_game_results_stats
        [⟨Result.DRAW, "A#0", "WHITE", "B#1", "BLACK"⟩] "A#0").total = 1 ∧
    (write_game_results_stats
        [⟨Result.DRAW, "A#0", "WHITE", "B#1", "BLACK"⟩] "B#1").total = 1 := by
  refine ⟨rfl, ?_, ?_, ?_, ?_⟩ <;> decide

/-- Witness for `stats_conservation` on the one-drawn-game run. -/
theorem stats_conservation_witness :
    (∀ game ∈ ([⟨Result.DRAW, "A#0", "WHITE", "B#1", "BLACK"⟩] :
        List ControllerGameRecord), game.winner_name ≠ game.loser_name) ∧
    (write_game_results_stats
        [⟨Result.DRAW, "A#0", "WHITE", "B#1", "BLACK"⟩] "A#0").total =
      ([⟨Result.DRAW, "A#0", "WHITE", "B#1", "BLACK"⟩] :
          List ControllerGameRecord).countP
        (fun game => "A#0" == game.winner_name || "A#0" == game.loser_name) :=
  ⟨by decide, stats_conservation _ "A#0" (by decide)⟩

/-! ### Round-trip lemmas for the codec layers -/

/-- Coordinate-to-square-to-coordinate round trip: on any playable
square of an even board the codec returns the original coordinate. -/
lemma coord_roundtrip (size : Int) (c : Coord) (hN : 2 ≤ size)
    (heven : size % 2 = 0) (hc : on_playable_square size c) :
    pdn_to_coordinates size (coordinates_to_pdn size c) = c := by
  obtain ⟨hr0, hrlt, hc0, hclt, hpar⟩ := hc
  have hh : (0 : Int) < size / 2 := by omega
  have hq0 : 0 ≤ c.2 / 2 := by omega
  have hqlt : c.2 / 2 < size / 2 := by omega
  simp only [pdn_to_coordinates, coordinates_to_pdn]
  have e1 : c.1 * (size / 2) + c.2 / 2 + 1 - 1 = c.2 / 2 + c.1 * (size / 2) := by ring
  have hrow : (c.1 * (size / 2) + c.2 / 2 + 1 - 1) / (size / 2) = c.1 := by
    rw [e1, Int.add_mul_ediv_right _ _ (by omega : size / 2 ≠ 0),
      Int.ediv_eq_zero_of_lt hq0 hqlt]
    ring
  have hmod : (c.1 * (size / 2) + c.2 / 2 + 1 - 1) % (size / 2) = c.2 / 2 := by
    rw [e1, Int.add_mul_emod_self]
    exact Int.emod_eq_of_lt hq0 hqlt
  simp only [hrow, hmod]
  have hsnd : c.2 / 2 * 2 + (if c.1 % 2 = 0 then (1 : Int) else 0) = c.2 := by
    by_cases hr : c.1 % 2 = 0 <;> simp [hr] at hpar ⊢ <;> omega
  calc (c.1, c.2 / 2 * 2 + (if c.1 % 2 = 0 then (1 : Int) else 0))
      = (c.1, c.2) := by rw [hsnd]
    _ = c := rfl

lemma digitChar_isDigit : ∀ d, d < 10 → (digitChar d).isDigit = true := by decide

lemma digitChar_val : ∀ d, d < 10 → (digitChar d).toNat - Char.toNat '0' = d := by decide

lemma natDigitsAux_ne_nil : ∀ fuel n, n < fuel → natDigitsAux fuel n ≠ [] := by
  intro fuel
  induction fuel with
  | zero => intro n h; omega
  | succ fuel ih =>
    intro n h
    rw [natDigitsAux]
    split
    · simp
    · simp

lemma natDigits_ne_nil (n : Nat) : natDigits n ≠ [] :=
  natDigitsAux_ne_nil (n + 1) n (by omega)

lemma natDigitsAux_all_isDigit :
    ∀ fuel n, n < fuel → (natDigitsAux fuel n).all Char.isDigit = true := by
  intro fuel
  induction fuel with
  | zero => intro n h; omega
  | succ fuel ih =>
    intro n h
    rw [natDigitsAux]
    split
    · rename_i hlt
      simp [digitChar_isDigit n hlt]
    · rename_i hlt
      rw [List.all_append]
      have h1 := ih (n / 10) (by omega)
      have h2 : (digitChar (n % 10)).isDigit = true :=
        digitChar_isDigit _ (Nat.mod_lt _ (by omega))
      simp [h1, h2]

lemma natDigits_all_isDigit (n : Nat) : (natDigits n).all Char.isDigit = true :=
  natDigitsAux_all_isDigit (n + 1) n (by omega)

lemma natDigitsAux_foldl :
    ∀ fuel n, n < fuel →
      (natDigitsAux fuel n).foldl (fun a c => a * 10 + (c.toNat - Char.toNat '0')) 0 = n := by
  intro fuel
  induction fuel with
  | zero => intro n h; omega
  | succ fuel ih =>
    intro n h
    rw [natDigitsAux]
    split
    · rename_i hlt
      have hv := digitChar_val n hlt
      simp only [List.foldl_cons, List.foldl_nil]
      omega
    · rename_i hlt
      rw [List.foldl_append]
      rw [ih (n / 10) (by omega)]
      have hv := digitChar_val (n % 10) (Nat.mod_lt _ (by omega))
      simp only [List.foldl_cons, List.foldl_nil]
      omega

lemma natDigits_foldl (n : Nat) :
    (natDigits n).foldl (fun a c => a * 10 + (c.toNat - Char.toNat '0')) 0 = n :=
  natDigitsAux_foldl (n + 1) n (by omega)

lemma parse_nat_digits_natDigits (n : Nat) :
    parse_nat_digits (natDigits n) = some n := by
  unfold parse_nat_digits
  rw [if_pos ⟨natDigits_ne_nil n, natDigits_all_isDigit n⟩, natDigits_foldl]

lemma mem_natDigits_isDigit (n : Nat) (c : Char) (hc : c ∈ natDigits n) :
    c.isDigit = true := by
  have hall := natDigits_all_isDigit n
  rw [List.all_eq_true] at hall
  exact hall c hc

lemma digit_ne_dash {c : Char} (h : c.isDigit = true) : c ≠ '-' := by
  intro heq
  rw [heq] at h
  exact absurd h (by decide)

lemma digit_ne_x {c : Char} (h : c.isDigit = true) : c ≠ 'x' := by
  intro heq
  rw [heq] at h
  exact absurd h (by decide)

lemma parse_int_intToChars (i : Int) (h : 0 ≤ i) :
    parse_int (intToChars i) = some i := by
  unfold intToChars
  rw [if_neg (by omega)]
  unfold parse_int
  have hhead : ¬ (natDigits i.toNat).headD ' ' = '-' := by
    cases hnd : natDigits i.toNat with
    | nil => exact absurd hnd (natDigits_ne_nil _)
    | cons c t =>
      simp only [List.headD_cons]
      exact digit_ne_dash
        (mem_natDigits_isDigit _ c (by rw [hnd]; exact List.mem_cons_self _ _))
  rw [if_neg hhead, parse_nat_digits_natDigits]
  simp [Int.toNat_of_nonneg h]

lemma intToChars_no_dash_no_x (i : Int) (h : 0 ≤ i) :
    '-' ∉ intToChars i ∧ 'x' ∉ intToChars i := by
  unfold intToChars
  rw [if_neg (by omega)]
  exact ⟨fun hm => digit_ne_dash (mem_natDigits_isDigit _ _ hm) rfl,
    fun hm => digit_ne_x (mem_natDigits_isDigit _ _ hm) rfl⟩

lemma splitOnChar_ne_nil (sep : Char) (cs : List Char) : splitOnChar sep cs ≠ [] := by
  cases cs with
  | nil => simp [splitOnChar]
  | cons c t =>
    simp only [splitOnChar]
    split
    · simp
    · split <;> simp

lemma splitOnChar_no_sep (sep : Char) (cs : List Char) (h : sep ∉ cs) :
    splitOnChar sep cs = [cs] := by
  induction cs with
  | nil => rfl
  | cons c t ih =>
    have hcs : ¬ c = sep := fun heq => h (heq ▸ List.mem_cons_self _ _)
    have ht : sep ∉ t := fun hm => h (List.mem_cons_of_mem _ hm)
    simp only [splitOnChar]
    rw [if_neg hcs, ih ht]

lemma splitOnChar_append_no_sep (sep : Char) (a b : List Char) (ha : sep ∉ a) :
    splitOnChar sep (a ++ b) =
      (a ++ (splitOnChar sep b).headD []) :: (splitOnChar sep b).tail := by
  induction a with
  | nil =>
    cases hsp : splitOnChar sep b with
    | nil => exact absurd hsp (splitOnChar_ne_nil _ _)
    | cons hh tt => simp [hsp]
  | cons c t ih =>
    have hcs : ¬ c = sep := fun heq => ha (heq ▸ List.mem_cons_self _ _)
    have ht : sep ∉ t := fun hm => ha (List.mem_cons_of_mem _ hm)
    simp only [List.cons_append, splitOnChar, List.append_eq]
    rw [if_neg hcs, ih ht]

lemma splitOnChar_sandwich (sep : Char) (a b : List Char) (ha : sep ∉ a)
    (hb : sep ∉ b) : splitOnChar sep (a ++ sep :: b) = [a, b] := by
  rw [splitOnChar_append_no_sep sep a (sep :: b) ha]
  have hsb : splitOnChar sep (sep :: b) = [] :: [b] := by
    simp only [splitOnChar]
    simp [splitOnChar_no_sep sep b hb]
  rw [hsb]
  simp

lemma coordinates_to_pdn_pos (size : Int) (c : Coord) (h2 : 2 ≤ size)
    (hc : on_playable_square size c) : 1 ≤ coordinates_to_pdn size c := by
  obtain ⟨hr0, hrlt, hc0, hclt, hpar⟩ := hc
  unfold coordinates_to_pdn
  have h1 : 0 ≤ c.1 * (size / 2) := mul_nonneg hr0 (by omega)
  have hq : 0 ≤ c.2 / 2 := by omega
  dsimp only
  linarith

/-- Parsing the rendered token of a move recovers its start and end
coordinates. -/
lemma parse_render (size : Int) (m : Move) (h2 : 2 ≤ size) (heven : size % 2 = 0)
    (hs : on_playable_square size m.start) (he : on_playable_square size m.endPos) :
    ∃ rm, Game.parse_move_token size (Game.render_move size m) =
      .ok ⟨m.start, m.endPos, rm⟩ := by
  have hs1 : 1 ≤ coordinates_to_pdn size m.start := coordinates_to_pdn_pos size m.start h2 hs
  have he1 : 1 ≤ coordinates_to_pdn size m.endPos :=
    coordinates_to_pdn_pos size m.endPos h2 he
  obtain ⟨hsd, hsx⟩ := intToChars_no_dash_no_x (coordinates_to_pdn size m.start) (by omega)
  obtain ⟨hed, hex⟩ := intToChars_no_dash_no_x (coordinates_to_pdn size m.endPos) (by omega)
  unfold Game.render_move
  by_cases hrem : m.removed ≠ []
  · rw [if_pos hrem]
    have hxmem : 'x' ∈ intToChars (coordinates_to_pdn size m.start) ++
        'x' :: intToChars (coordinates_to_pdn size m.endPos) := by simp
    have hdnot : '-' ∉ intToChars (coordinates_to_pdn size m.start) ++
        'x' :: intToChars (coordinates_to_pdn size m.endPos) := by
      simp only [List.mem_append, List.mem_cons]
      push_neg
      exact ⟨hsd, by decide, hed⟩
    simp only [Game.parse_move_token]
    rw [if_pos (Or.inr hxmem), if_neg hdnot]
    rw [splitOnChar_sandwich 'x' _ _ hsx hex]
    simp only [parse_int_intToChars (coordinates_to_pdn size m.start) (by omega),
      parse_int_intToChars (coordinates_to_pdn size m.endPos) (by omega)]
    rw [coord_roundtrip size m.start h2 heven hs, coord_roundtrip size m.endPos h2 heven he]
    exact ⟨_, rfl⟩
  · rw [if_neg hrem]
    have hdmem : '-' ∈ intToChars (coordinates_to_pdn size m.start) ++
        '-' :: intToChars (coordinates_to_pdn size m.endPos) := by simp
    have hxnot : 'x' ∉ intToChars (coordinates_to_pdn size m.start) ++
        '-' :: intToChars (coordinates_to_pdn size m.endPos) := by
      simp only [List.mem_append, List.mem_cons]
      push_neg
      exact ⟨hsx, by decide, hex⟩
    simp only [Game.parse_move_token]
    rw [if_pos (Or.inl hdmem), if_pos hdmem]
    rw [splitOnChar_sandwich '-' _ _ hsd hed]
    simp only [parse_int_intToChars (coordinates_to_pdn size m.start) (by omega),
      parse_int_intToChars (coordinates_to_pdn size m.endPos) (by omega)]
    rw [if_neg hxnot]
    rw [coord_roundtrip size m.start h2 heven hs, coord_roundtrip size m.endPos h2 heven he]
    exact ⟨_, rfl⟩

/-- Unfolding one step of the replay loop on a token that parses. -/
lemma import_moves_cons (B : BoardModel σ) (cs : List Char) (rest : List (List Char))
    (first : Bool) (g g1 : GameState σ) (mv : Move)
    (hparse : Game.parse_move_token B.size cs = .ok mv)
    (hok : Game.import_moves B (cs :: rest) first g = .ok g1) :
    ∃ turn, Game.import_moves B rest false
      (Game.swap_turn (Game.move_piece B { g with current_turn := turn } mv true none))
        = .ok g1 := by
  unfold Game.import_moves at hok
  rw [hparse] at hok
  dsimp only at hok
  split at hok
  · exact absurd hok (by simp)
  · rename_i turn heq
    exact ⟨turn, hok⟩

/-- Whenever replaying the exported token list succeeds, the rebuilt
history extends the initial one by exactly the original start/end pairs
in order. -/
lemma import_moves_export (B : BoardModel σ) (h2 : 2 ≤ B.size) (heven : B.size % 2 = 0) :
    ∀ (history : List Move) (first : Bool) (g g1 : GameState σ),
      (∀ m ∈ history,
        on_playable_square B.size m.start ∧ on_playable_square B.size m.endPos) →
      Game.import_moves B (Game.export_pdn B.size history) first g = .ok g1 →
      g1.move_history.map (fun m => (m.start, m.endPos)) =
        g.move_history.map (fun m => (m.start, m.endPos)) ++
          history.map (fun m => (m.start, m.endPos)) := by
  intro history
  induction history with
  | nil =>
    intro first g g1 _ hok
    unfold Game.export_pdn at hok
    simp only [List.map_nil] at hok
    unfold Game.import_moves at hok
    cases hok
    simp
  | cons m ms ih =>
    intro first g g1 hdark hok
    have hm := hdark m (List.mem_cons_self _ _)
    have hms : ∀ x ∈ ms,
        on_playable_square B.size x.start ∧ on_playable_square B.size x.endPos :=
      fun x hx => hdark x (List.mem_cons_of_mem _ hx)
    obtain ⟨rm, hparse⟩ := parse_render B.size m h2 heven hm.1 hm.2
    have hexp : Game.export_pdn B.size (m :: ms) =
        Game.render_move B.size m :: Game.export_pdn B.size ms := rfl
    rw [hexp] at hok
    obtain ⟨turn, hrec⟩ := import_moves_cons B _ _ first g g1 _ hparse hok
    have hmap := ih false _ g1 hms hrec
    rw [hmap]
    obtain ⟨hhist, -, -, -⟩ := move_piece_fields B { g with current_turn := turn }
      ⟨m.start, m.endPos, rm⟩ true none
    simp [hhist]

/-- C6: For every move history free of multi-jump chains (every removed
list has length at most 1) whose coordinates lie on playable squares of
the (even, at least 2) board, whenever re-importing the exported token
sequence into a fresh game succeeds, the reconstructed move history has
the same start/end coordinate pairs in the same order as the original. -/
theorem export_import_equivalent (B : BoardModel σ) (g0 g1 : GameState σ)
    (history : List Move)
    (hchain : ∀ m ∈ history, m.removed.length ≤ 1)
    (hdark : ∀ m ∈ history,
      on_playable_square B.size m.start ∧ on_playable_square B.size m.endPos)
    (h2 : 2 ≤ B.size) (heven : B.size % 2 = 0)
    (hfresh : g0.move_history = [])
    (hok : Game.import_pdn B (Game.export_pdn B.size history) g0 = .ok g1) :
    g1.move_history.map (fun m => (m.start, m.endPos)) =
      history.map (fun m => (m.start, m.endPos)) := by
  unfold Game.import_pdn at hok
  cases him : Game.import_moves B (Game.export_pdn B.size history) true g0 with
  | error e =>
    rw [him] at hok
    exact absurd hok (by simp)
  | ok gmid =>
    rw [him] at hok
    dsimp only at hok
    split at hok
    · exact absurd hok (by simp)
    · cases hok
      have hmap := import_moves_export B h2 heven history true g0 _ hdark him
      rw [hmap, hfresh]
      simp

/-- C8: During import, a token containing neither a dash nor an x — and
exactly such a token — is rejected with the format error, which is fatal:
when the loop reaches it the whole import fails with that error.  Tokens
containing a dash or an x never take the format-error branch. -/
theorem token_format_error (B : BoardModel σ) (cs : List Char)
    (rest : List (List Char)) (first : Bool) (g : GameState σ) :
    (('-' ∉ cs ∧ 'x' ∉ cs) ↔
      Game.parse_move_token B.size cs = .error (ImportError.invalid_format cs)) ∧
    (('-' ∉ cs ∧ 'x' ∉ cs) →
      Game.import_moves B (cs :: rest) first g =
        .error (ImportError.invalid_format cs) ∧
      Game.import_pdn B (cs :: rest) g = .error (ImportError.invalid_format cs)) := by
  have hparse : ('-' ∉ cs ∧ 'x' ∉ cs) →
      Game.parse_move_token B.size cs = .error (ImportError.invalid_format cs) := by
    rintro ⟨h1, h2⟩
    simp only [Game.parse_move_token]
    rw [if_neg (by simp [h1, h2])]
  have himp : ∀ first1 : Bool, ('-' ∉ cs ∧ 'x' ∉ cs) →
      Game.import_moves B (cs :: rest) first1 g =
        .error (ImportError.invalid_format cs) := by
    intro first1 hnn
    unfold Game.import_moves
    rw [hparse hnn]
  refine ⟨⟨hparse, ?_⟩, fun hnn => ⟨himp first hnn, ?_⟩⟩
  · intro heq
    by_cases hm : '-' ∈ cs
    · exfalso
      simp only [Game.parse_move_token] at heq
      rw [if_pos (Or.inl hm)] at heq
      (repeat' split at heq) <;> simp_all
    · by_cases hx : 'x' ∈ cs
      · exfalso
        simp only [Game.parse_move_token] at heq
        rw [if_pos (Or.inr hx)] at heq
        (repeat' split at heq) <;> simp_all
      · exact ⟨hm, hx⟩
  · unfold Game.import_pdn
    rw [himp true hnn]

/-- C9: If replaying all tokens of a seed succeeds but leaves the side to
move with no legal move, the import fails fatally instead of producing a
seeded game. -/
theorem import_rejects_finished (B : BoardModel σ) (tokens : List (List Char))
    (g0 gr : GameState σ)
    (hreplay : Game.import_moves B tokens true g0 = .ok gr)
    (hempty : B.get_move_list gr.board gr.current_turn = []) :
    Game.import_pdn B tokens g0 = .error ImportError.already_complete := by
  unfold Game.import_pdn
  rw [hreplay]
  simp [hempty]

/-- Witness for `export_import_equivalent`: the single simple move `mv0`
on the always-valid board exports to the token `9-14` and re-imports to a
history with the same start/end pair. -/
theorem export_import_equivalent_witness :
    ((∀ m ∈ [mv0], m.removed.length ≤ 1) ∧
      (∀ m ∈ [mv0], on_playable_square unitBoardOneMove.size m.start ∧
        on_playable_square unitBoardOneMove.size m.endPos) ∧
      2 ≤ unitBoardOneMove.size ∧ unitBoardOneMove.size % 2 = 0 ∧
      gU.move_history = [] ∧
      Game.import_pdn unitBoardOneMove
          (Game.export_pdn unitBoardOneMove.size [mv0]) gU =
        .ok ⟨(), Colour.BLACK, true, 0, 0, 0, 0, 0, "", [mv0], false⟩) ∧
    (⟨(), Colour.BLACK, true, 0, 0, 0, 0, 0, "", [mv0], false⟩ :
        GameState Unit).move_history.map (fun m => (m.start, m.endPos)) =
      [mv0].map (fun m => (m.start, m.endPos)) :=
  ⟨⟨by decide, by decide, by decide, by decide, rfl, rfl⟩,
    export_import_equivalent unitBoardOneMove gU _ [mv0] (by decide) (by decide)
      (by decide) (by decide) rfl rfl⟩

/-- Witness for `import_rejects_finished`: on the board that runs out of
moves after one ply, the one-token seed `10-14` replays fine but leaves no
legal move, so the import fails. -/
theorem import_rejects_finished_witness :
    (Game.import_moves natBoardOnce [['1', '0', '-', '1', '4']] true gN =
        .ok ⟨1, Colour.BLACK, true, 0, 0, 0, 0, 0, "", [⟨(2, 3), (3, 2), []⟩], false⟩ ∧
      natBoardOnce.get_move_list
        (⟨1, Colour.BLACK, true, 0, 0, 0, 0, 0, "", [⟨(2, 3), (3, 2), []⟩], false⟩ :
          GameState Nat).board
        (⟨1, Colour.BLACK, true, 0, 0, 0, 0, 0, "", [⟨(2, 3), (3, 2), []⟩], false⟩ :
          GameState Nat).current_turn = []) ∧
    Game.import_pdn natBoardOnce [['1', '0', '-', '1', '4']] gN =
      .error ImportError.already_complete :=
  ⟨⟨rfl, rfl⟩, import_rejects_finished natBoardOnce _ gN _ rfl rfl⟩

end Checkers
